import Mathlib

/-!
Verification development for the cadl-data-store TypeScript emitter
(src/index.ts). The type graph supplied by the host compiler is embedded
shallowly: type nodes are identified by a numeric identity (`TypeId`), and a
`Graph` assigns each identity its node description. Identity-based
memoization of the source (a JS `Map<Type, string>` keyed on object identity)
becomes an association list keyed on `TypeId`. The host compiler call
`getIntrinsicModelName p type` is out of scope of this repository and is
embedded as the `intrinsicName` field carried by each model node. Since the
source recursion can diverge on cyclic graphs, every recursive function takes
a fuel argument; `none` means fuel ran out (the source diverges), `some e`
is the terminating outcome, with thrown errors as `Except.error`.
-/

namespace DataStore

/-- Identity of a type node in the host type graph. Memoization in the
source is by object identity, embedded here as this identifier. -/
abbrev TypeId := Nat

/-- A model property: name, optional flag, and the property type. -/
structure ModelProp where
  name : String
  optional : Bool
  type : TypeId
deriving DecidableEq

/-- A node of the host type graph: the kinds the emitter dispatches on.
`model` carries the name, the intrinsic name that the host compiler function
`getIntrinsicModelName` would report (none for composite models), the
optional template arguments and the properties. `other` stands for every
kind that is not Model, Array, Union or Number. -/
inductive TypeNode where
  | model (name : String) (intrinsicName : Option String)
      (templateArguments : Option (List TypeId)) (properties : List ModelProp)
  | array (elementType : TypeId)
  | union (options : List TypeId)
  | number (value : Int)
  | other
deriving DecidableEq

/-- The host type graph: each identity has a node description. -/
abbrev Graph := TypeId → TypeNode

/-- Lookup in an association list keyed by type identity, embedding
`Map.get` / `Map.has` of the source. -/
def mapGet (m : List (TypeId × String)) (k : TypeId) : Option String :=
  match m with
  | [] => none
  | (k1, v) :: rest => if k1 = k then some v else mapGet rest k

/-- Insert or update in an association list keyed by type identity,
embedding `Map.set` of the source. -/
def mapSet (m : List (TypeId × String)) (k : TypeId) (v : String) :
    List (TypeId × String) :=
  match m with
  | [] => [(k, v)]
  | (k1, v1) :: rest =>
    if k1 = k then (k, v) :: rest else (k1, v1) :: mapSet rest k v

/-- Lookup in a string-keyed association list, embedding `Map.get` /
`Map.has` on the intrinsic table. -/
def strMapGet (m : List (String × String)) (k : String) : Option String :=
  match m with
  | [] => none
  | (k1, v) :: rest => if k1 = k then some v else strMapGet rest k

/-- The fixed intrinsic mapping table `instrinsicNameToTSType` of the
source (src/index.ts lines 21-29), with its original spelling. -/
def instrinsicNameToTSType : List (String × String) :=
  [("string", "string"),
   ("int32", "number"),
   ("int16", "number"),
   ("float16", "number"),
   ("float32", "number"),
   ("int64", "bigint"),
   ("boolean", "boolean")]

/-- The error message thrown by `getModelDeclarationName` for a template
argument that is neither a Model nor an Array of Model. -/
def templateArgErrorMsg : String :=
  "Can\x27t get a name for non-model type used to instantiate a model template"

mutual

/-- Embeds `getModelDeclarationName` (src/index.ts lines 140-163): a model
with no template arguments keeps its own name; otherwise the name is the
base name concatenated with the synthesized names of all template
arguments. The junk branch for a non-model node is unreachable from the
emitter, which only calls this on model nodes. -/
def getModelDeclarationName (g : Graph) (fuel : Nat) (t : TypeId) :
    Option (Except String String) :=
  match fuel with
  | 0 => none
  | fuel + 1 =>
    match g t with
    | TypeNode.model name _ templateArguments _ =>
      match templateArguments with
      | none => some (Except.ok name)
      | some [] => some (Except.ok name)
      | some (a :: rest) =>
        match templateArgNames g fuel (a :: rest) with
        | none => none
        | some (Except.error e) => some (Except.error e)
        | some (Except.ok ns) => some (Except.ok (name ++ String.join ns))
    | _ => some (Except.error "getModelDeclarationName: not a model")

/-- Embeds the callback of `type.templateArguments.map` in
`getModelDeclarationName`: a Model argument contributes its own synthesized
name, an Array argument whose element is a Model contributes the element
name with an `Array` suffix, and every other kind throws. -/
def templateArgName (g : Graph) (fuel : Nat) (t : TypeId) :
    Option (Except String String) :=
  match fuel with
  | 0 => none
  | fuel + 1 =>
    match g t with
    | TypeNode.model _ _ _ _ => getModelDeclarationName g fuel t
    | TypeNode.array elementType =>
      match g elementType with
      | TypeNode.model _ _ _ _ =>
        match getModelDeclarationName g fuel elementType with
        | none => none
        | some (Except.error e) => some (Except.error e)
        | some (Except.ok n) => some (Except.ok (n ++ "Array"))
      | _ => some (Except.error templateArgErrorMsg)
    | _ => some (Except.error templateArgErrorMsg)

/-- Embeds `type.templateArguments.map(...)` over the whole argument list,
left to right, propagating the first thrown error. -/
def templateArgNames (g : Graph) (fuel : Nat) (args : List TypeId) :
    Option (Except String (List String)) :=
  match fuel with
  | 0 => none
  | fuel + 1 =>
    match args with
    | [] => some (Except.ok [])
    | a :: rest =>
      match templateArgName g fuel a with
      | none => none
      | some (Except.error e) => some (Except.error e)
      | some (Except.ok n) =>
        match templateArgNames g fuel rest with
        | none => none
        | some (Except.error e) => some (Except.error e)
        | some (Except.ok ns) => some (Except.ok (n :: ns))

end

/-- The mutable state of one `createTsEmitter` closure: the declaration
list `typeDecls` and the memo table `knownTypes` (src/index.ts lines
32-33). -/
structure EmitterState where
  typeDecls : List String
  knownTypes : List (TypeId × String)
deriving DecidableEq

/-- The declaration string built by `generateModelType`:
`interface ${typeRef} {\n      ${props.join(",")}\n    }`. -/
def mkModelDecl (typeRef : String) (props : List String) : String :=
  "interface " ++ typeRef ++ " \x7b\n      " ++
    String.intercalate "," props ++ "\n    \x7d"

mutual

/-- Embeds `getTypeReference` (src/index.ts lines 90-105): memo check
first, then dispatch on the kind; the default branch returns the opaque
empty-object reference with no diagnostic. -/
def getTypeReference (g : Graph) (fuel : Nat) (st : EmitterState)
    (t : TypeId) : Option (Except String (String × EmitterState)) :=
  match fuel with
  | 0 => none
  | fuel + 1 =>
    match mapGet st.knownTypes t with
    | some ref => some (Except.ok (ref, st))
    | none =>
      match g t with
      | TypeNode.model _ _ _ _ => generateModelType g fuel st t
      | TypeNode.array elementType => generateArrayType g fuel st elementType
      | TypeNode.number v => some (Except.ok (toString v, st))
      | TypeNode.union options =>
        match unionRefs g fuel st options with
        | none => none
        | some (Except.error e) => some (Except.error e)
        | some (Except.ok (refs, st1)) =>
          some (Except.ok (String.intercalate "|" refs, st1))
      | TypeNode.other => some (Except.ok ("\x7b\x7d", st))

/-- Embeds `generateArrayType` (src/index.ts lines 107-109): resolve the
element type and append `[]`. -/
def generateArrayType (g : Graph) (fuel : Nat) (st : EmitterState)
    (elementType : TypeId) : Option (Except String (String × EmitterState)) :=
  match fuel with
  | 0 => none
  | fuel + 1 =>
    match getTypeReference g fuel st elementType with
    | none => none
    | some (Except.error e) => some (Except.error e)
    | some (Except.ok (ref, st1)) => some (Except.ok (ref ++ "[]", st1))

/-- Embeds `generateModelType` (src/index.ts lines 111-138): an intrinsic
model maps through the table (throwing on a missing entry) and is neither
declared nor memoized; a composite model resolves all properties, computes
its declaration name, appends the declaration and records the memo entry. -/
def generateModelType (g : Graph) (fuel : Nat) (st : EmitterState)
    (t : TypeId) : Option (Except String (String × EmitterState)) :=
  match fuel with
  | 0 => none
  | fuel + 1 =>
    match g t with
    | TypeNode.model _ (some intrinsicName) _ _ =>
      match strMapGet instrinsicNameToTSType intrinsicName with
      | none =>
        some (Except.error ("Unknown intrinsic type " ++ intrinsicName))
      | some r => some (Except.ok (r, st))
    | TypeNode.model _ none _ properties =>
      match resolveProps g fuel st properties with
      | none => none
      | some (Except.error e) => some (Except.error e)
      | some (Except.ok (props, st1)) =>
        match getModelDeclarationName g fuel t with
        | none => none
        | some (Except.error e) => some (Except.error e)
        | some (Except.ok typeRef) =>
          some (Except.ok (typeRef,
            { typeDecls := st1.typeDecls ++ [mkModelDecl typeRef props],
              knownTypes := mapSet st1.knownTypes t typeRef }))
    | _ => some (Except.error "generateModelType: not a model")

/-- Embeds the property loop of `generateModelType` (src/index.ts lines
121-125): each property contributes `name[?]: reference`, resolving
property types left to right while threading the emitter state. -/
def resolveProps (g : Graph) (fuel : Nat) (st : EmitterState)
    (props : List ModelProp) :
    Option (Except String (List String × EmitterState)) :=
  match fuel with
  | 0 => none
  | fuel + 1 =>
    match props with
    | [] => some (Except.ok ([], st))
    | p :: rest =>
      match getTypeReference g fuel st p.type with
      | none => none
      | some (Except.error e) => some (Except.error e)
      | some (Except.ok (ref, st1)) =>
        match resolveProps g fuel st1 rest with
        | none => none
        | some (Except.error e) => some (Except.error e)
        | some (Except.ok (rs, st2)) =>
          some (Except.ok
            ((p.name ++ (if p.optional then "?" else "") ++ ": " ++ ref) :: rs,
             st2))

/-- Embeds `type.options.map(getTypeReference)` of the Union branch:
resolve every option left to right, threading the emitter state. -/
def unionRefs (g : Graph) (fuel : Nat) (st : EmitterState)
    (options : List TypeId) :
    Option (Except String (List String × EmitterState)) :=
  match fuel with
  | 0 => none
  | fuel + 1 =>
    match options with
    | [] => some (Except.ok ([], st))
    | o :: rest =>
      match getTypeReference g fuel st o with
      | none => none
      | some (Except.error e) => some (Except.error e)
      | some (Except.ok (ref, st1)) =>
        match unionRefs g fuel st1 rest with
        | none => none
        | some (Except.error e) => some (Except.error e)
        | some (Except.ok (rs, st2)) => some (Except.ok (ref :: rs, st2))

end

/-- The `model.name` field access used by `emitStoreInterface` and by the
output path computation. -/
def typeName (g : Graph) (t : TypeId) : String :=
  match g t with
  | TypeNode.model name _ _ _ => name
  | _ => ""

/-- The fixed boilerplate template of `emitStoreInterface` (src/index.ts
lines 47-78), parameterized only by the root model name. -/
def storeTemplate (name : String) : String :=
  "\n    import \x7b CosmosClient, Database, Container \x7d from \"@azure/cosmos\";\n\n    class " ++
  name ++
  "Store \x7b\n      private client: CosmosClient;\n      private databaseId: string;\n      private containerId: string;\n      private container!: Container;\n      private database!: Database;\n      constructor(client: CosmosClient, databaseId: string, containerId: string) \x7b\n        this.client = client;\n        this.databaseId = databaseId;\n        this.containerId = containerId;\n      \x7d\n    \n      async init() \x7b\n        const \x7b database \x7d = await this.client.databases.createIfNotExists(\x7b\n          id: this.databaseId,\n        \x7d);\n        const \x7b container \x7d = await database.containers.createIfNotExists(\x7b\n          id: this.containerId,\n        \x7d);\n        this.database = database;\n        this.container = container;\n      \x7d\n    \n      async get(id: string): Promise<" ++
  name ++
  "> \x7b\n        let \x7b resource \x7d = await this.container.item(id).read();\n        return resource;\n      \x7d\n    \x7d    \n    "

/-- One generated output: the file path, the full file text, and the
declaration list of the pass (the declarations also appear verbatim at the
end of `storeCode`). -/
structure Artifact where
  outPath : String
  storeCode : String
  typeDecls : List String
deriving DecidableEq

/-- Embeds `emitStoreInterface` (src/index.ts lines 46-87): builds the
boilerplate from the root model name, resets `typeDecls` to the empty
list, resolves the root, and appends every collected declaration followed
by a newline. The memo table `knownTypes` is NOT reset here: it is the
closure state received from the previous pass and handed to the next one.
The `collectionName` parameter is accepted and never used, as in the
source. -/
def emitStoreInterface (g : Graph) (fuel : Nat) (outputDir : String)
    (knownTypes : List (TypeId × String)) (model : TypeId)
    (collectionName : String) :
    Option (Except String (Artifact × List (TypeId × String))) :=
  let name := typeName g model
  let outPath := outputDir ++ "/" ++ name ++ ".ts"
  match getTypeReference g fuel { typeDecls := [], knownTypes := knownTypes }
      model with
  | none => none
  | some (Except.error e) => some (Except.error e)
  | some (Except.ok (_, st1)) =>
    some (Except.ok
      ({ outPath := outPath,
         storeCode := storeTemplate name ++
           String.join (st1.typeDecls.map (fun d => d ++ "\n")),
         typeDecls := st1.typeDecls },
       st1.knownTypes))

/-- Embeds the loop of `emit` (src/index.ts lines 39-44) over the recorded
registrations: each registration is a root model with an optional recorded
collection name, defaulted to the model name, and the `knownTypes` closure
state threads from one pass to the next. A thrown error propagates out of
the loop. -/
def emit (g : Graph) (fuel : Nat) (outputDir : String)
    (knownTypes : List (TypeId × String))
    (regs : List (TypeId × Option String)) :
    Option (Except String (List Artifact)) :=
  match regs with
  | [] => some (Except.ok [])
  | (model, collectionName) :: rest =>
    match emitStoreInterface g fuel outputDir knownTypes model
        (collectionName.getD (typeName g model)) with
    | none => none
    | some (Except.error e) => some (Except.error e)
    | some (Except.ok (art, knownTypes1)) =>
      match emit g fuel outputDir knownTypes1 rest with
      | none => none
      | some (Except.error e) => some (Except.error e)
      | some (Except.ok arts) => some (Except.ok (art :: arts))

/-- The whole `createTsEmitter` plus `emit` entry point: the closure starts
with an empty declaration list and an empty memo table. -/
def emitAll (g : Graph) (fuel : Nat) (outputDir : String)
    (regs : List (TypeId × Option String)) :
    Option (Except String (List Artifact)) :=
  emit g fuel outputDir [] regs

/-- Decides whether a template argument node can be named by
`getModelDeclarationName`: it is a Model, or an Array whose element is a
Model. Every other kind makes `templateArgName` throw. -/
def isNameableArg (g : Graph) (t : TypeId) : Bool :=
  match g t with
  | TypeNode.model _ _ _ _ => true
  | TypeNode.array elementType =>
    match g elementType with
    | TypeNode.model _ _ _ _ => true
    | _ => false
  | _ => false

/-- The invariant of claim C10: every key of the memo table is a
non-intrinsic composite Model node, and a declaration whose head matches
the stored reference has been appended to the declaration list. -/
def MemoInv (g : Graph) (st : EmitterState) : Prop :=
  ∀ k ref, mapGet st.knownTypes k = some ref →
    (∃ name targs props, g k = TypeNode.model name none targs props) ∧
    ∃ ps, mkModelDecl ref ps ∈ st.typeDecls

/-- A small concrete graph used by witnesses: a composite model `A`, a
model with an unmapped intrinsic name, and an intrinsic string model;
every other identity is an unrecognized kind. -/
def gSimple : Graph := fun t =>
  match t with
  | 0 => TypeNode.model "A" none none []
  | 1 => TypeNode.model "Bad" (some "uint8") none []
  | 2 => TypeNode.model "string" (some "string") none []
  | _ => TypeNode.other

/-- Concrete graph for claim C1: roots `A` and `C` both have a property of
the shared composite model `B`, whose property `x` is an intrinsic
string. -/
def gC1 : Graph := fun t =>
  match t with
  | 0 => TypeNode.model "A" none none [⟨"b", false, 1⟩]
  | 1 => TypeNode.model "B" none none [⟨"x", false, 2⟩]
  | 2 => TypeNode.model "string" (some "string") none []
  | 3 => TypeNode.model "C" none none [⟨"b", false, 1⟩]
  | _ => TypeNode.other

/-- Concrete graph for claim C2: the model `M` has a property whose type
is `M` itself (a self-referential cycle). -/
def gC2 : Graph := fun t =>
  match t with
  | 0 => TypeNode.model "M" none none [⟨"self", false, 0⟩]
  | _ => TypeNode.other

/-- Concrete graph for claim C5: a union of the intrinsic models `string`
and `int32`. -/
def gC5 : Graph := fun t =>
  match t with
  | 0 => TypeNode.union [1, 2]
  | 1 => TypeNode.model "string" (some "string") none []
  | 2 => TypeNode.model "int32" (some "int32") none []
  | _ => TypeNode.other

/-- Concrete graph for claim C4: identity 0 is `Page<User>`, identity 10
is `Page<User[]>`, identity 1 is the model `User` and identity 2 is the
array `User[]`. -/
def gPage : Graph := fun t =>
  match t with
  | 0 => TypeNode.model "Page" none (some [1]) []
  | 1 => TypeNode.model "User" none none []
  | 2 => TypeNode.array 1
  | 10 => TypeNode.model "Page" none (some [2]) []
  | _ => TypeNode.other

/-- Lookup after insert-or-update: the updated key reads back the new
value, every other key is unaffected. -/
theorem mapGet_mapSet (m : List (TypeId × String)) (a k : TypeId)
    (v : String) :
    mapGet (mapSet m a v) k = if a = k then some v else mapGet m k := by
  induction m with
  | nil => simp [mapSet, mapGet]
  | cons p rest ih =>
    obtain ⟨k1, v1⟩ := p
    by_cases h1 : k1 = a
    · subst h1
      by_cases h2 : k1 = k
      · subst h2
        simp [mapSet, mapGet]
      · simp [mapSet, mapGet, h2]
    · by_cases h2 : k1 = k
      · subst h2
        have ha : ¬ (a = k1) := fun h => h1 h.symm
        simp [mapSet, mapGet, h1, ha]
      · simp [mapSet, mapGet, h1, h2, ih]

/-- Lookup after insert at the inserted key. -/
theorem mapGet_mapSet_self (m : List (TypeId × String)) (k : TypeId)
    (v : String) : mapGet (mapSet m k v) k = some v := by
  simp [mapGet_mapSet]

/-- A successful lookup in a string association list returns one of its
entries. -/
theorem strMapGet_mem (m : List (String × String)) (k v : String)
    (h : strMapGet m k = some v) : (k, v) ∈ m := by
  induction m with
  | nil => simp [strMapGet] at h
  | cons p rest ih =>
    obtain ⟨k1, v1⟩ := p
    by_cases hk : k1 = k
    · subst hk
      simp [strMapGet] at h
      simp [h]
    · simp [strMapGet, hk] at h
      exact List.mem_cons_of_mem _ (ih h)

/-- A name outside the seven mapped intrinsic names misses the intrinsic
table. -/
theorem strMapGet_table_eq_none (s : String)
    (hs : s ∉ ["string", "int32", "int16", "float16", "float32", "int64",
               "boolean"]) :
    strMapGet instrinsicNameToTSType s = none := by
  simp only [List.mem_cons, List.mem_singleton, not_or] at hs
  obtain ⟨h1, h2, h3, h4, h5, h6, h7, -⟩ := hs
  simp [instrinsicNameToTSType, strMapGet, Ne.symm h1, Ne.symm h2,
    Ne.symm h3, Ne.symm h4, Ne.symm h5, Ne.symm h6, Ne.symm h7]

/-- Claim C3: for every intrinsic-named Model whose intrinsic name is not
one of string, int32, int16, float16, float32, int64, boolean, resolution
throws the fatal unknown-intrinsic error, which also aborts the whole
pass of `emitStoreInterface`; no degraded reference is returned. -/
theorem c3_unknown_intrinsic_fatal (g : Graph) (fuel : Nat)
    (st : EmitterState) (t : TypeId) (name s : String)
    (targs : Option (List TypeId)) (props : List ModelProp)
    (outputDir collectionName : String)
    (hg : g t = TypeNode.model name (some s) targs props)
    (hs : s ∉ ["string", "int32", "int16", "float16", "float32", "int64",
               "boolean"])
    (hmemo : mapGet st.knownTypes t = none) :
    getTypeReference g (fuel + 2) st t =
      some (Except.error ("Unknown intrinsic type " ++ s)) ∧
    emitStoreInterface g (fuel + 2) outputDir st.knownTypes t
        collectionName =
      some (Except.error ("Unknown intrinsic type " ++ s)) := by
  have htab := strMapGet_table_eq_none s hs
  constructor
  · simp [getTypeReference, hmemo, hg, generateModelType, htab]
  · simp [emitStoreInterface, getTypeReference, hmemo, hg,
      generateModelType, htab]

/-- Witness for claim C3 at the concrete intrinsic name `uint8`. -/
theorem c3_unknown_intrinsic_fatal_witness :
    getTypeReference gSimple 2 ⟨[], []⟩ 1 =
      some (Except.error ("Unknown intrinsic type " ++ "uint8")) ∧
    emitStoreInterface gSimple 2 "out" [] 1 "pets" =
      some (Except.error ("Unknown intrinsic type " ++ "uint8")) :=
  c3_unknown_intrinsic_fatal gSimple 0 ⟨[], []⟩ 1 "Bad" "uint8" none []
    "out" "pets" rfl (by decide) rfl

/-- Claim C5: a Union resolves to its option references joined with the
separator, and never appends a declaration of its own: the state after
resolving the union is exactly the state after resolving its options. In
particular the union of the intrinsic models string and int32 resolves to
the reference string|number with no declaration and no memo entry. -/
theorem c5_union_inline (g : Graph) (fuel : Nat) (st st1 : EmitterState)
    (t : TypeId) (options : List TypeId) (refs : List String)
    (hg : g t = TypeNode.union options)
    (hmemo : mapGet st.knownTypes t = none)
    (hopts : unionRefs g fuel st options = some (Except.ok (refs, st1))) :
    getTypeReference g (fuel + 1) st t =
      some (Except.ok (String.intercalate "|" refs, st1)) ∧
    getTypeReference gC5 6 ⟨[], []⟩ 0 =
      some (Except.ok ("string|number", ⟨[], []⟩)) := by
  constructor
  · simp [getTypeReference, hmemo, hg, hopts]
  · rfl

/-- Witness for claim C5: both option references of the concrete union
are resolved and joined into string|number. -/
theorem c5_union_inline_witness :
    getTypeReference gC5 6 ⟨[], []⟩ 0 =
      some (Except.ok (String.intercalate "|" ["string", "number"],
        ⟨[], []⟩)) :=
  (c5_union_inline gC5 5 ⟨[], []⟩ ⟨[], []⟩ 0 [1, 2] ["string", "number"]
    rfl rfl rfl).1

/-- Claim C6: the intrinsic mapping is exactly the closed table
string to string, int32/int16/float16/float32 to number, int64 to bigint,
boolean to boolean; a model carrying an intrinsic name in the table
resolves to the mapped reference with the state unchanged, so no
declaration and no memo entry is added for it. -/
theorem c6_intrinsic_mapping :
    strMapGet instrinsicNameToTSType "string" = some "string" ∧
    strMapGet instrinsicNameToTSType "int32" = some "number" ∧
    strMapGet instrinsicNameToTSType "int16" = some "number" ∧
    strMapGet instrinsicNameToTSType "float16" = some "number" ∧
    strMapGet instrinsicNameToTSType "float32" = some "number" ∧
    strMapGet instrinsicNameToTSType "int64" = some "bigint" ∧
    strMapGet instrinsicNameToTSType "boolean" = some "boolean" ∧
    (∀ s r, strMapGet instrinsicNameToTSType s = some r →
      (s, r) ∈ instrinsicNameToTSType) ∧
    (∀ (g : Graph) (fuel : Nat) (st : EmitterState) (t : TypeId)
       (name s r : String) (targs : Option (List TypeId))
       (props : List ModelProp),
       g t = TypeNode.model name (some s) targs props →
       mapGet st.knownTypes t = none →
       strMapGet instrinsicNameToTSType s = some r →
       getTypeReference g (fuel + 2) st t = some (Except.ok (r, st))) := by
  refine ⟨rfl, rfl, rfl, rfl, rfl, rfl, rfl, ?_, ?_⟩
  · intro s r h
    exact strMapGet_mem instrinsicNameToTSType s r h
  · intro g fuel st t name s r targs props hg hmemo htab
    simp [getTypeReference, hmemo, hg, generateModelType, htab]

/-- Witness for claim C6: the intrinsic string model resolves to the
reference string with nothing added to the state. -/
theorem c6_intrinsic_mapping_witness :
    getTypeReference gSimple 2 ⟨[], []⟩ 2 =
      some (Except.ok ("string", ⟨[], []⟩)) :=
  c6_intrinsic_mapping.2.2.2.2.2.2.2.2 gSimple 0 ⟨[], []⟩ 2 "string"
    "string" "string" none [] rfl rfl rfl

/-- Claim C7: a Type of any kind other than Model, Array, Union or Number
resolves to the opaque empty-object reference with the state unchanged:
no declaration is appended, no memo entry is added, and no error or
diagnostic is raised. -/
theorem c7_unknown_kind_silently_degrades (g : Graph) (fuel : Nat)
    (st : EmitterState) (t : TypeId)
    (hg : g t = TypeNode.other)
    (hmemo : mapGet st.knownTypes t = none) :
    getTypeReference g (fuel + 1) st t =
      some (Except.ok ("\x7b\x7d", st)) := by
  simp [getTypeReference, hmemo, hg]

/-- Witness for claim C7 on a concrete unrecognized node. -/
theorem c7_unknown_kind_silently_degrades_witness :
    getTypeReference gSimple 1 ⟨[], []⟩ 9 =
      some (Except.ok ("\x7b\x7d", ⟨[], []⟩)) :=
  c7_unknown_kind_silently_degrades gSimple 0 ⟨[], []⟩ 9 rfl rfl

/-- Claim C4: a model without template arguments keeps its own name; with
template arguments the synthesized name is the base name concatenated with
each argument contribution in order with no separator, where a Model
argument contributes its own synthesized name, an Array-of-Model argument
contributes the element name plus the Array suffix, and any other argument
kind throws the fatal naming error, which propagates to the model name
synthesis. Concretely Page of User yields PageUser and Page of User array
yields PageUserArray. -/
theorem c4_template_instantiation_names :
    (∀ (g : Graph) (fuel : Nat) (t : TypeId) (name : String)
       (intr : Option String) (props : List ModelProp),
       g t = TypeNode.model name intr none props →
       getModelDeclarationName g (fuel + 1) t = some (Except.ok name)) ∧
    (∀ (g : Graph) (fuel : Nat) (t : TypeId) (name : String)
       (intr : Option String) (props : List ModelProp),
       g t = TypeNode.model name intr (some []) props →
       getModelDeclarationName g (fuel + 1) t = some (Except.ok name)) ∧
    (∀ (g : Graph) (fuel : Nat) (t : TypeId) (name : String)
       (intr : Option String) (a : TypeId) (rest : List TypeId)
       (props : List ModelProp) (ns : List String),
       g t = TypeNode.model name intr (some (a :: rest)) props →
       templateArgNames g fuel (a :: rest) = some (Except.ok ns) →
       getModelDeclarationName g (fuel + 1) t =
         some (Except.ok (name ++ String.join ns))) ∧
    (∀ (g : Graph) (fuel : Nat) (t : TypeId) (name : String)
       (intr : Option String) (a : TypeId) (rest : List TypeId)
       (props : List ModelProp) (e : String),
       g t = TypeNode.model name intr (some (a :: rest)) props →
       templateArgNames g fuel (a :: rest) = some (Except.error e) →
       getModelDeclarationName g (fuel + 1) t = some (Except.error e)) ∧
    (∀ (g : Graph) (fuel : Nat) (a : TypeId) (name : String)
       (intr : Option String) (targs : Option (List TypeId))
       (props : List ModelProp),
       g a = TypeNode.model name intr targs props →
       templateArgName g (fuel + 1) a = getModelDeclarationName g fuel a) ∧
    (∀ (g : Graph) (fuel : Nat) (a elementType : TypeId) (n name : String)
       (intr : Option String) (targs : Option (List TypeId))
       (props : List ModelProp),
       g a = TypeNode.array elementType →
       g elementType = TypeNode.model name intr targs props →
       getModelDeclarationName g fuel elementType = some (Except.ok n) →
       templateArgName g (fuel + 1) a = some (Except.ok (n ++ "Array"))) ∧
    (∀ (g : Graph) (fuel : Nat) (a : TypeId),
       isNameableArg g a = false →
       templateArgName g (fuel + 1) a =
         some (Except.error templateArgErrorMsg)) ∧
    getModelDeclarationName gPage 5 0 = some (Except.ok "PageUser") ∧
    getModelDeclarationName gPage 5 10 = some (Except.ok "PageUserArray") := by
  refine ⟨?_, ?_, ?_, ?_, ?_, ?_, ?_, rfl, rfl⟩
  · intro g fuel t name intr props hg
    simp [getModelDeclarationName, hg]
  · intro g fuel t name intr props hg
    simp [getModelDeclarationName, hg]
  · intro g fuel t name intr a rest props ns hg hargs
    simp [getModelDeclarationName, hg, hargs]
  · intro g fuel t name intr a rest props e hg hargs
    simp [getModelDeclarationName, hg, hargs]
  · intro g fuel a name intr targs props hg
    simp [templateArgName, hg]
  · intro g fuel a elementType n name intr targs props hga hge hname
    simp [templateArgName, hga, hge, hname]
  · intro g fuel a hbad
    match hga : g a with
    | TypeNode.model name intr targs props =>
      rw [isNameableArg, hga] at hbad
      simp at hbad
    | TypeNode.array elementType =>
      match hge : g elementType with
      | TypeNode.model name intr targs props =>
        rw [isNameableArg, hga] at hbad
        simp [hge] at hbad
      | TypeNode.array e2 => simp [templateArgName, hga, hge]
      | TypeNode.union os => simp [templateArgName, hga, hge]
      | TypeNode.number v => simp [templateArgName, hga, hge]
      | TypeNode.other => simp [templateArgName, hga, hge]
    | TypeNode.union os => simp [templateArgName, hga]
    | TypeNode.number v => simp [templateArgName, hga]
    | TypeNode.other => simp [templateArgName, hga]

/-- Witness for claim C4: the no-argument conjunct on the concrete model
User and the fatal conjunct on a concrete non-nameable argument. -/
theorem c4_template_instantiation_names_witness :
    getModelDeclarationName gPage 2 1 = some (Except.ok "User") ∧
    templateArgName gPage 1 5 = some (Except.error templateArgErrorMsg) :=
  ⟨c4_template_instantiation_names.1 gPage 1 1 "User" none [] rfl,
   c4_template_instantiation_names.2.2.2.2.2.2.1 gPage 0 5 rfl⟩

/-- Claim C1, refuted on the code: the declaration list is reset for each
registration, but the memo table `knownTypes` of the emitter closure is
NOT reset. With two roots A and C both reaching the shared composite
model B, the first artifact declares B and A, while the second artifact
declares only C, whose body still references B: the second root reuses
the memo entry of the earlier pass and its artifact refers to a
declaration that was emitted only in the earlier artifact. -/
theorem c1_memo_table_shared_across_passes :
    (emitAll gC1 12 "out" [(0, none), (3, none)]).map
        (Except.map (List.map Artifact.typeDecls)) =
      some (Except.ok
        [[mkModelDecl "B" ["x: string"], mkModelDecl "A" ["b: B"]],
         [mkModelDecl "C" ["b: B"]]]) ∧
    mkModelDecl "B" ["x: string"] ∉ [mkModelDecl "C" ["b: B"]] := by
  exact ⟨rfl, by decide⟩

/-- Claim C2, refuted on the code: the memo entry for a composite model is
only written after all of its properties have been resolved, so the
self-referential model of `gC2` makes the resolver re-enter itself with
the memo still empty: for every fuel bound the resolution runs out of
fuel, which embeds the unbounded recursion of the source. -/
theorem c2_cyclic_model_diverges : ∀ (fuel : Nat) (st : EmitterState),
    mapGet st.knownTypes 0 = none → getTypeReference gC2 fuel st 0 = none := by
  intro fuel
  induction fuel using Nat.strong_induction_on with
  | _ fuel ih =>
    intro st hmemo
    cases fuel with
    | zero => rfl
    | succ f1 =>
      cases f1 with
      | zero => simp [getTypeReference, hmemo, generateModelType, gC2]
      | succ f2 =>
        cases f2 with
        | zero =>
          simp [getTypeReference, hmemo, generateModelType, resolveProps,
            gC2]
        | succ f3 =>
          have h0 := ih f3 (by omega) st hmemo
          simp [getTypeReference, hmemo, generateModelType, resolveProps,
            gC2, h0]

/-- Witness for claim C2: divergence observed at the concrete fuel 100
from the empty state. -/
theorem c2_cyclic_model_diverges_witness :
    getTypeReference gC2 100 ⟨[], []⟩ 0 = none :=
  c2_cyclic_model_diverges 100 ⟨[], []⟩ rfl

/-- Claim C8: once resolving a Model has succeeded, resolving the same
identity again from the resulting state returns the same reference and
leaves the state unchanged, so no second declaration is appended: a
composite model is answered from the memo entry recorded by the first
resolution, and an intrinsic model deterministically maps through the
table again without touching the state. -/
theorem c8_memoization_idempotent (g : Graph) (fuel k : Nat)
    (st st1 : EmitterState) (t : TypeId) (ref name : String)
    (intr : Option String) (targs : Option (List TypeId))
    (props : List ModelProp)
    (hg : g t = TypeNode.model name intr targs props)
    (h1 : getTypeReference g fuel st t = some (Except.ok (ref, st1))) :
    getTypeReference g (k + 2) st1 t = some (Except.ok (ref, st1)) := by
  cases fuel with
  | zero => simp [getTypeReference] at h1
  | succ f =>
    rw [getTypeReference] at h1
    cases hmemo : mapGet st.knownTypes t with
    | some r =>
      rw [hmemo] at h1
      simp at h1
      obtain ⟨hr, hst⟩ := h1
      subst hr
      subst hst
      simp [getTypeReference, hmemo]
    | none =>
      rw [hmemo, hg] at h1
      simp only at h1
      cases f with
      | zero => simp [generateModelType] at h1
      | succ f2 =>
        rw [generateModelType, hg] at h1
        cases intr with
        | some s =>
          cases htab : strMapGet instrinsicNameToTSType s with
          | none => simp [htab] at h1
          | some r =>
            simp [htab] at h1
            obtain ⟨hr, hst⟩ := h1
            subst hr
            subst hst
            simp [getTypeReference, hmemo, hg, generateModelType, htab]
        | none =>
          simp only at h1
          cases hprops : resolveProps g f2 st props with
          | none => rw [hprops] at h1; simp at h1
          | some pr =>
            rw [hprops] at h1
            cases pr with
            | error e => simp at h1
            | ok p =>
              obtain ⟨prs, st2⟩ := p
              simp only at h1
              cases hnm : getModelDeclarationName g f2 t with
              | none => rw [hnm] at h1; simp at h1
              | some nm =>
                rw [hnm] at h1
                cases nm with
                | error e => simp at h1
                | ok typeRef =>
                  simp at h1
                  obtain ⟨hr, hst⟩ := h1
                  subst hr
                  subst hst
                  simp [getTypeReference, mapGet_mapSet_self]

/-- Witness for claim C8: after resolving the composite model `A` once,
resolving it again from the resulting state is answered from the memo with
the same reference and the unchanged state. -/
theorem c8_memoization_idempotent_witness :
    getTypeReference gSimple 2 ⟨[mkModelDecl "A" []], [(0, "A")]⟩ 0 =
      some (Except.ok ("A", ⟨[mkModelDecl "A" []], [(0, "A")]⟩)) :=
  c8_memoization_idempotent gSimple 3 0 ⟨[], []⟩
    ⟨[mkModelDecl "A" []], [(0, "A")]⟩ 0 "A" "A" none none [] rfl rfl

/-- Claim C9: the artifact built by a pass, including its output path, and
the whole sequence of artifacts of a batch depend only on the root models:
the recorded collection name is never used by the builder, so two runs
that differ only in the recorded collection names produce identical
artifacts at identical paths. -/
theorem c9_collection_name_ignored :
    (∀ (g : Graph) (fuel : Nat) (outputDir : String)
       (knownTypes : List (TypeId × String)) (t : TypeId) (c1 c2 : String),
       emitStoreInterface g fuel outputDir knownTypes t c1 =
         emitStoreInterface g fuel outputDir knownTypes t c2) ∧
    (∀ (g : Graph) (fuel : Nat) (outputDir : String)
       (knownTypes : List (TypeId × String))
       (regs1 regs2 : List (TypeId × Option String)),
       regs1.map Prod.fst = regs2.map Prod.fst →
       emit g fuel outputDir knownTypes regs1 =
         emit g fuel outputDir knownTypes regs2) := by
  constructor
  · intro g fuel outputDir knownTypes t c1 c2
    rfl
  · intro g fuel outputDir knownTypes regs1
    induction regs1 generalizing knownTypes with
    | nil =>
      intro regs2 h
      cases regs2 with
      | nil => rfl
      | cons r rest => simp at h
    | cons r1 rest1 ih =>
      intro regs2 h
      cases regs2 with
      | nil => simp at h
      | cons r2 rest2 =>
        obtain ⟨m1, c1⟩ := r1
        obtain ⟨m2, c2⟩ := r2
        simp at h
        obtain ⟨hm, hrest⟩ := h
        subst hm
        have he : emitStoreInterface g fuel outputDir knownTypes m1
              (Option.getD c1 (typeName g m1)) =
            emitStoreInterface g fuel outputDir knownTypes m1
              (Option.getD c2 (typeName g m1)) := rfl
        simp only [emit]
        rw [he]
        cases hE : emitStoreInterface g fuel outputDir knownTypes m1
            (Option.getD c2 (typeName g m1)) with
        | none => rfl
        | some r =>
          cases r with
          | error e => rfl
          | ok p =>
            obtain ⟨art, knownTypes1⟩ := p
            simp only
            rw [ih knownTypes1 rest2 hrest]

/-- Witness for claim C9: two concrete batches over the same root with
different recorded collection names produce the same artifacts. -/
theorem c9_collection_name_ignored_witness :
    emit gSimple 5 "out" [] [(0, some "alpha")] =
      emit gSimple 5 "out" [] [(0, some "beta")] :=
  c9_collection_name_ignored.2 gSimple 5 "out" [] [(0, some "alpha")]
    [(0, some "beta")] rfl

/-- Preservation of the memo invariant by every state-passing resolution
function, proved simultaneously by strong induction on the fuel. -/
theorem memoInv_preserved (g : Graph) : ∀ fuel : Nat,
    (∀ st t r st1, MemoInv g st →
       getTypeReference g fuel st t = some (Except.ok (r, st1)) →
       MemoInv g st1) ∧
    (∀ st t r st1, MemoInv g st →
       generateArrayType g fuel st t = some (Except.ok (r, st1)) →
       MemoInv g st1) ∧
    (∀ st t r st1, MemoInv g st →
       generateModelType g fuel st t = some (Except.ok (r, st1)) →
       MemoInv g st1) ∧
    (∀ st ps rs st1, MemoInv g st →
       resolveProps g fuel st ps = some (Except.ok (rs, st1)) →
       MemoInv g st1) ∧
    (∀ st os rs st1, MemoInv g st →
       unionRefs g fuel st os = some (Except.ok (rs, st1)) →
       MemoInv g st1) := by
  intro fuel
  induction fuel using Nat.strong_induction_on with
  | _ fuel ih =>
    cases fuel with
    | zero =>
      refine ⟨?_, ?_, ?_, ?_, ?_⟩
      · intro st t r st1 hInv h; simp [getTypeReference] at h
      · intro st t r st1 hInv h; simp [generateArrayType] at h
      · intro st t r st1 hInv h; simp [generateModelType] at h
      · intro st ps rs st1 hInv h; simp [resolveProps] at h
      · intro st os rs st1 hInv h; simp [unionRefs] at h
    | succ f =>
      have ihf := ih f (Nat.lt_succ_self f)
      refine ⟨?_, ?_, ?_, ?_, ?_⟩
      · intro st t r st1 hInv h
        rw [getTypeReference] at h
        cases hmemo : mapGet st.knownTypes t with
        | some ref =>
          simp [hmemo] at h
          obtain ⟨-, hst⟩ := h
          subst hst
          exact hInv
        | none =>
          rw [hmemo] at h
          simp only at h
          cases hgt : g t with
          | model name intr targs props =>
            rw [hgt] at h
            simp only at h
            exact ihf.2.2.1 st t r st1 hInv h
          | array elementType =>
            rw [hgt] at h
            simp only at h
            exact ihf.2.1 st elementType r st1 hInv h
          | number v =>
            simp [hgt] at h
            obtain ⟨-, hst⟩ := h
            subst hst
            exact hInv
          | union options =>
            rw [hgt] at h
            simp only at h
            cases hu : unionRefs g f st options with
            | none => simp [hu] at h
            | some u =>
              cases u with
              | error e => simp [hu] at h
              | ok p =>
                obtain ⟨refs, st2⟩ := p
                simp [hu] at h
                obtain ⟨-, hst⟩ := h
                subst hst
                exact ihf.2.2.2.2 st options refs _ hInv hu
          | other =>
            simp [hgt] at h
            obtain ⟨-, hst⟩ := h
            subst hst
            exact hInv
      · intro st t r st1 hInv h
        rw [generateArrayType] at h
        cases hr : getTypeReference g f st t with
        | none => simp [hr] at h
        | some u =>
          cases u with
          | error e => simp [hr] at h
          | ok p =>
            obtain ⟨ref, stA⟩ := p
            simp [hr] at h
            obtain ⟨-, hst⟩ := h
            subst hst
            exact ihf.1 st t ref _ hInv hr
      · intro st t r st1 hInv h
        rw [generateModelType] at h
        cases hgt : g t with
        | model name intr targs props =>
          cases intr with
          | some s =>
            rw [hgt] at h
            simp only at h
            cases htab : strMapGet instrinsicNameToTSType s with
            | none => simp [htab] at h
            | some r0 =>
              simp [htab] at h
              obtain ⟨-, hst⟩ := h
              subst hst
              exact hInv
          | none =>
            rw [hgt] at h
            simp only at h
            cases hprops : resolveProps g f st props with
            | none => simp [hprops] at h
            | some u =>
              cases u with
              | error e => simp [hprops] at h
              | ok p =>
                obtain ⟨prs, st2⟩ := p
                rw [hprops] at h
                simp only at h
                cases hnm : getModelDeclarationName g f t with
                | none => simp [hnm] at h
                | some nm =>
                  cases nm with
                  | error e => simp [hnm] at h
                  | ok typeRef =>
                    simp [hnm] at h
                    obtain ⟨hr, hst⟩ := h
                    have hInv2 := ihf.2.2.2.1 st props prs st2 hInv hprops
                    subst hst
                    intro k ref hk
                    simp only at hk
                    rw [mapGet_mapSet] at hk
                    by_cases hkt : t = k
                    · subst hkt
                      rw [if_pos rfl] at hk
                      simp at hk
                      subst hk
                      exact ⟨⟨name, targs, props, hgt⟩,
                        ⟨prs, by simp⟩⟩
                    · rw [if_neg hkt] at hk
                      obtain ⟨hmod, ps, hmem⟩ := hInv2 k ref hk
                      exact ⟨hmod, ⟨ps, List.mem_append_left _ hmem⟩⟩
        | array elementType => simp [hgt] at h
        | union options => simp [hgt] at h
        | number v => simp [hgt] at h
        | other => simp [hgt] at h
      · intro st ps rs st1 hInv h
        cases ps with
        | nil =>
          rw [resolveProps] at h
          simp at h
          obtain ⟨-, hst⟩ := h
          subst hst
          exact hInv
        | cons p rest =>
          rw [resolveProps] at h
          cases hr1 : getTypeReference g f st p.type with
          | none => simp [hr1] at h
          | some u =>
            cases u with
            | error e => simp [hr1] at h
            | ok q =>
              obtain ⟨ref1, stA⟩ := q
              rw [hr1] at h
              simp only at h
              have hInvA := ihf.1 st p.type ref1 stA hInv hr1
              cases hr2 : resolveProps g f stA rest with
              | none => simp [hr2] at h
              | some u2 =>
                cases u2 with
                | error e => simp [hr2] at h
                | ok q2 =>
                  obtain ⟨rs2, stB⟩ := q2
                  simp [hr2] at h
                  obtain ⟨-, hst⟩ := h
                  subst hst
                  exact ihf.2.2.2.1 stA rest rs2 _ hInvA hr2
      · intro st os rs st1 hInv h
        cases os with
        | nil =>
          rw [unionRefs] at h
          simp at h
          obtain ⟨-, hst⟩ := h
          subst hst
          exact hInv
        | cons o rest =>
          rw [unionRefs] at h
          cases hr1 : getTypeReference g f st o with
          | none => simp [hr1] at h
          | some u =>
            cases u with
            | error e => simp [hr1] at h
            | ok q =>
              obtain ⟨ref1, stA⟩ := q
              rw [hr1] at h
              simp only at h
              have hInvA := ihf.1 st o ref1 stA hInv hr1
              cases hr2 : unionRefs g f stA rest with
              | none => simp [hr2] at h
              | some u2 =>
                cases u2 with
                | error e => simp [hr2] at h
                | ok q2 =>
                  obtain ⟨rs2, stB⟩ := q2
                  simp [hr2] at h
                  obtain ⟨-, hst⟩ := h
                  subst hst
                  exact ihf.2.2.2.2 stA rest rs2 _ hInvA hr2

/-- Claim C10: the memo table only ever holds non-intrinsic composite
Models whose declaration has been appended: the invariant `MemoInv` is
preserved by every successful resolution step, so intrinsic-named models,
arrays, unions and number literals never acquire memo entries. -/
theorem c10_memo_only_declared_models (g : Graph) (fuel : Nat)
    (st st1 : EmitterState) (t : TypeId) (r : String)
    (hInv : MemoInv g st)
    (h : getTypeReference g fuel st t = some (Except.ok (r, st1))) :
    MemoInv g st1 :=
  (memoInv_preserved g fuel).1 st t r st1 hInv h

/-- Witness for claim C10: resolving the composite model `A` from the
empty state yields a state whose only memo key is that model, with its
declaration appended. -/
theorem c10_memo_only_declared_models_witness :
    MemoInv gSimple ⟨[mkModelDecl "A" []], [(0, "A")]⟩ :=
  c10_memo_only_declared_models gSimple 3 ⟨[], []⟩
    ⟨[mkModelDecl "A" []], [(0, "A")]⟩ 0 "A"
    (fun k ref hk => by simp [mapGet] at hk) rfl

end DataStore
